import Mathlib

/-
Verification of the DMD pattern-sequence synthesis logic of
mcsim/expt_ctrl/set_dmd_sim.py.

The embedding models the Python module shallowly:
  * numpy integer arrays become `List Int` (with an `ndim` field where the
    code inspects dimensionality);
  * Python dicts become association lists keyed by `String`;
  * fallible code returns `Except PyErr`, with constructors for the Python
    exception classes the code can raise (`ValueError`, `KeyError`,
    `IndexError`; numpy shape errors are `ValueError`);
  * dynamically typed arguments (str-or-list, int-or-list, None-or-list)
    become explicit sum types.
-/

namespace SetDmdSim

/-- Python exception kinds raised on the code paths modelled here. -/
inductive PyErr where
  | valueError
  | keyError
  | indexError
  deriving DecidableEq

/-- A numpy integer array: its number of dimensions and its flat data.
Every array placed in `channel_map` by the source is one-dimensional. -/
structure NpArr where
  ndim : Nat
  data : List Int
  deriving DecidableEq

/-- One mode dict of `channel_map`: `{"picture_indices": ..., "bit_indices": ...}`.
`none` models a missing dictionary key. -/
structure ModeEntry where
  picture_indices : Option NpArr
  bit_indices : Option NpArr
  deriving DecidableEq

/-- Build a mode entry from two one-dimensional arrays, as every literal
`{"picture_indices": np.array(...), "bit_indices": np.array(...)}` in the source does. -/
def mk_mode (p b : List Int) : ModeEntry :=
  ModeEntry.mk (some (NpArr.mk 1 p)) (some (NpArr.mk 1 b))

/-- The source's `on_mode = channel_map["on"]["default"]` (picture `[1]`, bit `[3]`). -/
def on_mode : ModeEntry := mk_mode [1] [3]

/-- The source's `off_mode = channel_map["off"]["default"]` (picture `[1]`, bit `[4]`). -/
def off_mode : ModeEntry := mk_mode [1] [4]

/-- The source's `on_affine_mode` (picture `[1]`, bit `[5]`). -/
def on_affine_mode : ModeEntry := mk_mode [1] [5]

/-- The source's `off_affine_mode` (picture `[1]`, bit `[6]`). -/
def off_affine_mode : ModeEntry := mk_mode [1] [6]

/-- Entry `channel_map["blue"]["default"]`: `np.zeros(9)` pictures, `np.arange(9)` bits. -/
def blue_default : ModeEntry :=
  mk_mode (List.replicate 9 0) ((List.range 9).map Int.ofNat)

/-- Entry `channel_map["red"]["default"]`: `np.zeros(9)` pictures, `np.arange(9, 18)` bits. -/
def red_default : ModeEntry :=
  mk_mode (List.replicate 9 0) ((List.range 9).map (fun k => Int.ofNat k + 9))

/-- Entry `channel_map["green"]["default"]`: pictures `[0]*6 + [1]*3`,
bits `list(range(18, 24)) + list(range(3))`. -/
def green_default : ModeEntry :=
  mk_mode (List.replicate 6 0 ++ List.replicate 3 1)
    ((List.range 6).map (fun k => Int.ofNat k + 18) ++ (List.range 3).map Int.ofNat)

/-- Entry `channel_map["odt"]["default"]`: `np.ones(11)` pictures, `np.arange(7, 18)` bits. -/
def odt_default : ModeEntry :=
  mk_mode (List.replicate 11 1) ((List.range 11).map (fun k => Int.ofNat k + 7))

/-- The module-level `channel_map` after the two construction loops ran.
Insertion order follows the source: the dict literal defines channels
"off", "on", "blue", "red", "green", "odt" with their "default" modes; the
first loop then adds, for the non-inverted channels "red" and "blue", the
modes off := off_mode, on := on_mode, widefield := on_mode,
affine := on_affine_mode, sim := the channel's default; the second loop adds,
for the inverted channels "green" and "odt", off := on_mode, on := off_mode,
widefield := off_mode, affine := off_affine_mode, sim := the channel's default. -/
def channel_map : List (String × List (String × ModeEntry)) :=
  [("off", [("default", off_mode)]),
   ("on", [("default", on_mode)]),
   ("blue", [("default", blue_default), ("off", off_mode), ("on", on_mode),
             ("widefield", on_mode), ("affine", on_affine_mode), ("sim", blue_default)]),
   ("red", [("default", red_default), ("off", off_mode), ("on", on_mode),
            ("widefield", on_mode), ("affine", on_affine_mode), ("sim", red_default)]),
   ("green", [("default", green_default), ("off", on_mode), ("on", off_mode),
              ("widefield", off_mode), ("affine", off_affine_mode), ("sim", green_default)]),
   ("odt", [("default", odt_default), ("off", on_mode), ("on", off_mode),
            ("widefield", off_mode), ("affine", off_affine_mode), ("sim", odt_default)])]

/-- Python dict subscript `d[k]`: the first entry with key `k`, else `KeyError`. -/
def lookup_assoc {α : Type} (xs : List (String × α)) (k : String) : Except PyErr α :=
  match xs.find? (fun p => p.1 == k) with
  | some p => Except.ok p.2
  | none => Except.error PyErr.keyError

/-- Lookup `channel_map[c][m]`. -/
def cm_lookup (c m : String) : Except PyErr ModeEntry := do
  let ch ← lookup_assoc channel_map c
  lookup_assoc ch m

/-- Subscripting a mode dict with "picture_indices"/"bit_indices": `KeyError`
when the key is absent, else the array's flat data.  Every entry reachable
through `channel_map` is one-dimensional, so the flat data is the array. -/
def arr_data : Option NpArr → Except PyErr (List Int)
  | some a => Except.ok a.data
  | none => Except.error PyErr.keyError

/-- Here `mode_fields_ok` is the per-mode body of `validate_channel_map`: the
"picture_indices" key must be present, hold an array, and have `ndim == 1`,
and likewise "bit_indices".  (In this model every stored value is an array,
so the `isinstance(..., np.ndarray)` test cannot fail separately.) -/
def mode_fields_ok (e : ModeEntry) : Bool :=
  (match e.picture_indices with
   | some a => a.ndim == 1
   | none => false) &&
  (match e.bit_indices with
   | some a => a.ndim == 1
   | none => false)

/-- Function `validate_channel_map(cm)`: every channel must contain a "default" mode,
and every mode of every channel must pass the field checks.  The source
returns `False` at the first failure and `True` at the end, which is the
same value as this conjunction of list traversals. -/
def validate_channel_map (cm : List (String × List (String × ModeEntry))) : Bool :=
  cm.all (fun ch =>
    ch.2.any (fun q => q.1 == "default") &&
    ch.2.all (fun q => mode_fields_ok q.2))

/-- Spec-side predicate (for comparison with `validate_channel_map`): the
conditions §4.1 lists for a mode, except the length-mismatch clause — the
key is missing, or the array is not one-dimensional. -/
def mode_entry_bad (e : ModeEntry) : Prop :=
  e.picture_indices = none ∨ e.bit_indices = none ∨
  (∃ a, e.picture_indices = some a ∧ a.ndim ≠ 1) ∨
  (∃ a, e.bit_indices = some a ∧ a.ndim ≠ 1)

/-- A catalog whose single mode has picture/bit arrays of different lengths
(1 versus 2), both one-dimensional; used to probe the validator. -/
def mismatched_map : List (String × List (String × ModeEntry)) :=
  [("ch", [("default", ModeEntry.mk (some (NpArr.mk 1 [0])) (some (NpArr.mk 1 [0, 1])))])]

/-- A catalog whose single channel lacks a "default" mode. -/
def no_default_map : List (String × List (String × ModeEntry)) :=
  [("ch", [("sim", mk_mode [0] [0])])]

/-- The `modes` / `channels` arguments: a Python `str`, a `list[str]`, or
anything else (which the `isinstance` checks reject). -/
inductive StrArg where
  | str (s : String)
  | list (xs : List String)
  | other

/-- The `nrepeats` argument: an `int`, a `list[int]`, `None`, or anything else. -/
inductive NrepArg where
  | int (n : Int)
  | list (xs : List Int)
  | none
  | other

/-- The `blank` argument: a `bool`, a `list[bool]`, or anything else. -/
inductive BlankArg where
  | bool (b : Bool)
  | list (xs : List Bool)
  | other

/-- The `mode_pattern_indices` argument: `None` (defaulted per channel), a
single `int` index, a `list` of index arrays, or anything else.  A scalar
index `i` behaves downstream exactly like the one-element array `[i]`
(numpy scalar indexing followed by `np.hstack`), so it is embedded as that
singleton. -/
inductive MpiArg where
  | none
  | int (i : Int)
  | list (xs : List (List Int))
  | other

/-- Wrapping by `isinstance(x, str)` followed by the `isinstance(x, list)` check,
shared by the `channels` and `modes` arguments. -/
def norm_str_arg : StrArg → Except PyErr (List String)
  | StrArg.str s => Except.ok [s]
  | StrArg.list xs => Except.ok xs
  | StrArg.other => Except.error PyErr.valueError

/-- The broadcasting applied to each per-channel field:
`if len(xs) == 1 and nmodes > 1: xs = xs * nmodes` followed by
`if len(xs) != nmodes: raise ValueError()`.  Python `xs * n` is `n`
concatenated copies of `xs`. -/
def broadcast_check {α : Type} (xs : List α) (n : Nat) : Except PyErr (List α) :=
  let ys := if xs.length = 1 ∧ 1 < n then (List.replicate n xs).flatten else xs
  if ys.length = n then Except.ok ys else Except.error PyErr.valueError

/-- Function `np.hstack(arrays)`: `ValueError` when given no arrays at all, otherwise
the concatenation. -/
def np_hstack (l : List (List Int)) : Except PyErr (List Int) :=
  if l = [] then Except.error PyErr.valueError else Except.ok l.flatten

/-- Function `np.ones(n, dtype=int)`: `ValueError` for a negative size. -/
def np_ones (n : Int) : Except PyErr (List Int) :=
  if n < 0 then Except.error PyErr.valueError else Except.ok (List.replicate n.toNat 1)

/-- Elementwise product `a * b` of two one-dimensional arrays under numpy
broadcasting: equal lengths multiply pointwise, a length-1 operand is
stretched, anything else is a `ValueError`. -/
def bcast_mul (a b : List Int) : Except PyErr (List Int) :=
  if a.length = b.length then Except.ok (List.zipWith (fun x y => x * y) a b)
  else if a.length = 1 then Except.ok (b.map (fun y => a.headD 0 * y))
  else if b.length = 1 then Except.ok (a.map (fun x => x * b.headD 0))
  else Except.error PyErr.valueError

/-- One numpy integer index into a one-dimensional array: indices in
`[-len, len)` are accepted, negative ones counting from the end; anything
else is an `IndexError`. -/
def py_index (xs : List Int) (i : Int) : Except PyErr Int :=
  let n : Int := Int.ofNat xs.length
  let j : Int := if i < 0 then i + n else i
  if 0 ≤ j ∧ j < n then Except.ok (xs.getD j.toNat 0) else Except.error PyErr.indexError

/-- numpy fancy indexing `xs[ind]` with an integer index array: one output
element per index, in the given order; any out-of-range index raises. -/
def fancy_index (xs : List Int) : List Int → Except PyErr (List Int)
  | [] => Except.ok []
  | i :: rest => do
    let v ← py_index xs i
    let vs ← fancy_index xs rest
    Except.ok (v :: vs)

/-- Assignment `a[::2] = xs; a[1::2] = ys` on `a = zeros(2 * len xs)` when `ys` has the
same length as `xs`: the strict alternation `xs0, ys0, xs1, ys1, ...`. -/
def interleave_pairs : List Int → List Int → List Int
  | x :: xs, y :: ys => x :: y :: interleave_pairs xs ys
  | _, _ => []

/-- The blanking construction of the source:
`new = zeros(2 * n); new[::2] = xs; new[1::2] = off`.  The second assignment
broadcasts: `off` must have length `n` or length 1 (stretched to all odd
slots), else numpy raises a `ValueError`. -/
def np_interleave (xs off : List Int) : Except PyErr (List Int) :=
  if off.length = xs.length then Except.ok (interleave_pairs xs off)
  else if off.length = 1 then
    Except.ok (interleave_pairs xs (List.replicate xs.length (off.headD 0)))
  else Except.error PyErr.valueError

/-- The body of the processing loop for one channel: look the mode up in
`channel_map`, take both index arrays (`np.array(np.atleast_1d(...), copy=True)`
is the identity on the one-dimensional arrays stored there), select
`pi[ind]` / `bi[ind]`, then tile with `np.hstack([pi] * nreps)`. -/
def run_mode (c m : String) (ind : List Int) (nreps : Int) :
    Except PyErr (List Int × List Int) := do
  let e ← cm_lookup c m
  let p0 ← arr_data e.picture_indices
  let b0 ← arr_data e.bit_indices
  let p1 ← fancy_index p0 ind
  let b1 ← fancy_index b0 ind
  let p2 ← np_hstack (List.replicate nreps.toNat p1)
  let b2 ← np_hstack (List.replicate nreps.toNat b1)
  Except.ok (p2, b2)

/-- The dark-frame insertion for one channel (run only when
`ndarkframes != 0`): look up the channel's "off" mode, build
`off * np.ones(ndarkframes)` for both arrays and prepend it. -/
def add_dark_one (c : String) (nd : Int) (pb : List Int × List Int) :
    Except PyErr (List Int × List Int) := do
  let e ← cm_lookup c "off"
  let op ← arr_data e.picture_indices
  let ob ← arr_data e.bit_indices
  let ones ← np_ones nd
  let pp ← bcast_mul op ones
  let bb ← bcast_mul ob ones
  Except.ok (pp ++ pb.1, bb ++ pb.2)

/-- The blanking step for one channel: when its blank flag is set, look up
the channel's "off" mode and interleave an off frame after every frame of
both arrays; otherwise leave the pair unchanged. -/
def apply_blank (c : String) (b : Bool) (pb : List Int × List Int) :
    Except PyErr (List Int × List Int) :=
  if b then do
    let e ← cm_lookup c "off"
    let op ← arr_data e.picture_indices
    let ob ← arr_data e.bit_indices
    let p ← np_interleave pb.1 op
    let q ← np_interleave pb.2 ob
    Except.ok (p, q)
  else Except.ok pb

/-- A Python `for` loop that appends `f x` for each `x`, stopping at the
first exception. -/
def map_each {α β : Type} (f : α → Except PyErr β) : List α → Except PyErr (List β)
  | [] => Except.ok []
  | a :: rest => do
    let b ← f a
    let bs ← map_each f rest
    Except.ok (b :: bs)

/-- Zip of three equal-length per-channel lists. -/
def zip3 {α β γ : Type} : List α → List β → List γ → List (α × β × γ)
  | a :: as, b :: bs, c :: cs => (a, b, c) :: zip3 as bs cs
  | _, _, _ => []

/-- Zip of four equal-length per-channel lists. -/
def zip4 {α β γ δ : Type} : List α → List β → List γ → List δ → List (α × β × γ × δ)
  | a :: as, b :: bs, c :: cs, d :: ds => (a, b, c, d) :: zip4 as bs cs ds
  | _, _, _, _ => []

/-- Function `get_dmd_sequence(modes, channels, nrepeats, ndarkframes, blank,
mode_pattern_indices)`, following the source line by line: normalize and
broadcast `channels`, `modes`, `mode_pattern_indices` (defaulting `None` to
`np.arange(npatterns)` per channel), `nrepeats` (the source's
`if nrepeats is None` default sits after the `isinstance` checks, which have
already rejected `None`, so that branch is dead) and `blank`; run the
selection/repeat loop per channel; prepend dark frames when
`ndarkframes != 0`; interleave blanking frames per flagged channel; and
`np.hstack` the per-channel results. -/
def get_dmd_sequence (modes : StrArg) (channels : StrArg) (nrepeats : NrepArg)
    (ndarkframes : Int) (blank : BlankArg) (mode_pattern_indices : MpiArg) :
    Except PyErr (List Int × List Int) := do
  let chl ← norm_str_arg channels
  let nmodes := chl.length
  let ml0 ← norm_str_arg modes
  let ml ← broadcast_check ml0 nmodes
  let mpi0 ← (match mode_pattern_indices with
    | MpiArg.none => map_each (fun q => do
        let e ← cm_lookup q.1 q.2
        let p ← arr_data e.picture_indices
        Except.ok ((List.range p.length).map Int.ofNat)) (List.zip chl ml)
    | MpiArg.int i => Except.ok [[i]]
    | MpiArg.list xs => Except.ok xs
    | MpiArg.other => Except.error PyErr.valueError)
  let mpis ← broadcast_check mpi0 nmodes
  let nr0 ← (match nrepeats with
    | NrepArg.int n => Except.ok [n]
    | NrepArg.list xs => Except.ok xs
    | _ => Except.error PyErr.valueError)
  let nrs ← broadcast_check nr0 nmodes
  let bl0 ← (match blank with
    | BlankArg.bool b => Except.ok [b]
    | BlankArg.list xs => Except.ok xs
    | BlankArg.other => Except.error PyErr.valueError)
  let bls ← broadcast_check bl0 nmodes
  let base ← map_each (fun q => run_mode q.1 q.2.1 q.2.2.1 q.2.2.2)
    (zip4 chl ml mpis nrs)
  let darked ← (if ndarkframes = 0 then Except.ok base
    else map_each (fun q => add_dark_one q.1 ndarkframes q.2) (List.zip chl base))
  let blanked ← map_each (fun q => apply_blank q.1 q.2.1 q.2.2) (zip3 chl bls darked)
  let p ← np_hstack (blanked.map Prod.fst)
  let q ← np_hstack (blanked.map Prod.snd)
  Except.ok (p, q)

/-! Helper lemmas about the monadic plumbing and the list combinators. -/

theorem ebind_ok {α β : Type} (a : α) (f : α → Except PyErr β) :
    Bind.bind (Except.ok a) f = f a := rfl

theorem ebind_err {α β : Type} (e : PyErr) (f : α → Except PyErr β) :
    Bind.bind (Except.error e : Except PyErr α) f = (Except.error e : Except PyErr β) := rfl

theorem ebind_ok_iff {α β : Type} {x : Except PyErr α} {f : α → Except PyErr β} {b : β} :
    Bind.bind x f = Except.ok b ↔ ∃ a, x = Except.ok a ∧ f a = Except.ok b := by
  cases x with
  | error e => simp [ebind_err]
  | ok a => simp [ebind_ok]

theorem bc_len {α : Type} {xs : List α} {n : Nat} {ys : List α}
    (h : broadcast_check xs n = Except.ok ys) : ys.length = n := by
  by_cases h1 : xs.length = 1 ∧ 1 < n
  · simp only [broadcast_check, if_pos h1] at h
    by_cases h2 : ((List.replicate n xs).flatten).length = n
    · rw [if_pos h2] at h
      cases h
      exact h2
    · rw [if_neg h2] at h
      exact Except.noConfusion h
  · simp only [broadcast_check, if_neg h1] at h
    by_cases h2 : xs.length = n
    · rw [if_pos h2] at h
      cases h
      exact h2
    · rw [if_neg h2] at h
      exact Except.noConfusion h

theorem fancy_len {xs : List Int} : ∀ {ind ys : List Int},
    fancy_index xs ind = Except.ok ys → ys.length = ind.length := by
  intro ind
  induction ind with
  | nil =>
    intro ys h
    simp only [fancy_index] at h
    cases h
    rfl
  | cons i rest ih =>
    intro ys h
    simp only [fancy_index] at h
    rcases ebind_ok_iff.mp h with ⟨v, _, h2⟩
    rcases ebind_ok_iff.mp h2 with ⟨vs, hvs, h3⟩
    injection h3 with h4
    subst h4
    simp [ih hvs]

theorem np_hstack_ok {l : List (List Int)} {j : List Int}
    (h : np_hstack l = Except.ok j) : j = l.flatten := by
  simp only [np_hstack] at h
  split at h
  · exact Except.noConfusion h
  · cases h
    rfl

theorem flatten_replicate_length {α : Type} (k : Nat) (xs : List α) :
    ((List.replicate k xs).flatten).length = k * xs.length := by
  induction k with
  | zero => simp
  | succ k ih =>
    simp only [List.replicate_succ, List.flatten_cons, List.length_append, ih]
    ring

theorem lookup_assoc_mem {α : Type} {xs : List (String × α)} {k : String} {v : α}
    (h : lookup_assoc xs k = Except.ok v) : (k, v) ∈ xs := by
  unfold lookup_assoc at h
  cases hf : xs.find? (fun p => p.1 == k) with
  | none => rw [hf] at h; exact Except.noConfusion h
  | some p =>
    rw [hf] at h
    have hv : p.2 = v := by cases h; rfl
    have hm := List.mem_of_find?_eq_some hf
    have hk : p.1 = k := by
      have h2 := List.find?_some hf
      simp only [beq_iff_eq] at h2
      exact h2
    cases p with
    | mk a b =>
      simp only at hk hv
      subst hk
      subst hv
      exact hm

theorem off_entry_cases {c : String} {e : ModeEntry}
    (h : cm_lookup c "off" = Except.ok e) : e = on_mode ∨ e = off_mode := by
  unfold cm_lookup at h
  rcases ebind_ok_iff.mp h with ⟨ch, hch, hoff⟩
  have hm1 := lookup_assoc_mem hch
  have hm2 := lookup_assoc_mem hoff
  have key : ∀ p ∈ channel_map, ∀ q ∈ p.2,
      q.1 = "off" → q.2 = on_mode ∨ q.2 = off_mode := by decide
  exact key _ hm1 _ hm2 rfl

theorem mem_zip_snd {α β : Type} : ∀ {as : List α} {bs : List β} {x : α × β},
    x ∈ List.zip as bs → x.2 ∈ bs := by
  intro as
  induction as with
  | nil => intro bs x h; simp [List.zip] at h
  | cons a as ih =>
    intro bs x h
    cases bs with
    | nil => simp [List.zip] at h
    | cons b bs =>
      rw [List.zip_cons_cons] at h
      rcases List.mem_cons.mp h with h1 | h1
      · subst h1; simp
      · exact List.mem_cons_of_mem _ (ih h1)

theorem mem_zip3_third {α β γ : Type} : ∀ {as : List α} {bs : List β} {cs : List γ}
    {x : α × β × γ}, x ∈ zip3 as bs cs → x.2.2 ∈ cs := by
  intro as
  induction as with
  | nil => intro bs cs x h; simp [zip3] at h
  | cons a as ih =>
    intro bs cs x h
    cases bs with
    | nil => simp [zip3] at h
    | cons b bs =>
      cases cs with
      | nil => simp [zip3] at h
      | cons c cs =>
        rw [show zip3 (a :: as) (b :: bs) (c :: cs) = (a, b, c) :: zip3 as bs cs from rfl] at h
        rcases List.mem_cons.mp h with h1 | h1
        · subst h1; simp
        · exact List.mem_cons_of_mem _ (ih h1)

theorem map_each_ok_mem {α β : Type} {f : α → Except PyErr β} :
    ∀ {xs : List α} {ys : List β}, map_each f xs = Except.ok ys →
      ∀ y ∈ ys, ∃ x ∈ xs, f x = Except.ok y := by
  intro xs
  induction xs with
  | nil =>
    intro ys h y hy
    simp only [map_each] at h
    cases h
    simp at hy
  | cons a rest ih =>
    intro ys h y hy
    simp only [map_each] at h
    rcases ebind_ok_iff.mp h with ⟨b, hb, h2⟩
    rcases ebind_ok_iff.mp h2 with ⟨bs, hbs, h3⟩
    injection h3 with h4
    subst h4
    rcases List.mem_cons.mp hy with h5 | h5
    · subst h5; exact ⟨a, List.mem_cons_self _ _, hb⟩
    · rcases ih hbs y h5 with ⟨x, hx, hfx⟩
      exact ⟨x, List.mem_cons_of_mem _ hx, hfx⟩

theorem interleave_pairs_length : ∀ (xs ys : List Int), ys.length = xs.length →
    (interleave_pairs xs ys).length = 2 * xs.length := by
  intro xs
  induction xs with
  | nil =>
    intro ys h
    cases ys with
    | nil => simp [interleave_pairs]
    | cons y ys => simp at h
  | cons x xs ih =>
    intro ys h
    cases ys with
    | nil => simp at h
    | cons y ys =>
      have h2 := ih ys (by simpa using h)
      simp only [interleave_pairs, List.length_cons, h2]
      omega

theorem interleave_pairs_getD_even : ∀ (xs ys : List Int) (k : Nat), ys.length = xs.length →
    k < xs.length → (interleave_pairs xs ys).getD (2 * k) 0 = xs.getD k 0 := by
  intro xs
  induction xs with
  | nil => intro ys k hl hk; simp at hk
  | cons x xs ih =>
    intro ys k hl hk
    cases ys with
    | nil => simp at hl
    | cons y ys =>
      cases k with
      | zero => simp [interleave_pairs]
      | succ k =>
        have e1 : 2 * (k + 1) = (2 * k) + 1 + 1 := by ring
        rw [e1]
        simp only [interleave_pairs, List.getD_cons_succ]
        exact ih ys k (by simpa using hl) (by simp only [List.length_cons] at hk; omega)

theorem interleave_pairs_getD_odd : ∀ (xs ys : List Int) (k : Nat), ys.length = xs.length →
    k < xs.length → (interleave_pairs xs ys).getD (2 * k + 1) 0 = ys.getD k 0 := by
  intro xs
  induction xs with
  | nil => intro ys k hl hk; simp at hk
  | cons x xs ih =>
    intro ys k hl hk
    cases ys with
    | nil => simp at hl
    | cons y ys =>
      cases k with
      | zero => simp [interleave_pairs]
      | succ k =>
        have e1 : 2 * (k + 1) + 1 = (2 * k + 1) + 1 + 1 := by ring
        rw [e1]
        simp only [interleave_pairs, List.getD_cons_succ]
        exact ih ys k (by simpa using hl) (by simp only [List.length_cons] at hk; omega)

theorem replicate_getD (v : Int) : ∀ (n k : Nat), k < n →
    (List.replicate n v).getD k 0 = v := by
  intro n
  induction n with
  | zero => intro k h; exact absurd h (Nat.not_lt_zero k)
  | succ n ih =>
    intro k h
    cases k with
    | zero => simp [List.replicate_succ]
    | succ k =>
      simp only [List.replicate_succ, List.getD_cons_succ]
      exact ih k (by omega)

theorem interleave_single (xs : List Int) (v : Int) :
    np_interleave xs [v] = Except.ok (interleave_pairs xs (List.replicate xs.length v)) := by
  unfold np_interleave
  by_cases h : ([v] : List Int).length = xs.length
  · rw [if_pos h]
    have h2 : List.replicate xs.length v = [v] := by rw [← h]; rfl
    rw [h2]
  · rw [if_neg h, if_pos (show ([v] : List Int).length = 1 from rfl)]
    rfl

theorem np_interleave_ok_length {xs off ys : List Int}
    (h : np_interleave xs off = Except.ok ys) : ys.length = 2 * xs.length := by
  unfold np_interleave at h
  by_cases h1 : off.length = xs.length
  · rw [if_pos h1] at h
    cases h
    exact interleave_pairs_length xs off h1
  · rw [if_neg h1] at h
    by_cases h2 : off.length = 1
    · rw [if_pos h2] at h
      cases h
      exact interleave_pairs_length _ _ (by simp)
    · rw [if_neg h2] at h
      exact Except.noConfusion h

theorem bcast_mul_len_one {a b c : List Int} (ha : a.length = 1)
    (h : bcast_mul a b = Except.ok c) : c.length = b.length := by
  unfold bcast_mul at h
  by_cases h1 : a.length = b.length
  · rw [if_pos h1] at h
    cases h
    simp [List.length_zipWith]
    omega
  · rw [if_neg h1, if_pos ha] at h
    cases h
    simp

theorem run_mode_len {c m : String} {ind : List Int} {nr : Int} {p b : List Int}
    (h : run_mode c m ind nr = Except.ok (p, b)) : p.length = b.length := by
  unfold run_mode at h
  rcases ebind_ok_iff.mp h with ⟨e, he, h⟩
  rcases ebind_ok_iff.mp h with ⟨p0, hp0, h⟩
  rcases ebind_ok_iff.mp h with ⟨b0, hb0, h⟩
  rcases ebind_ok_iff.mp h with ⟨p1, hp1, h⟩
  rcases ebind_ok_iff.mp h with ⟨b1, hb1, h⟩
  rcases ebind_ok_iff.mp h with ⟨p2, hp2, h⟩
  rcases ebind_ok_iff.mp h with ⟨b2, hb2, h⟩
  injection h with h2
  injection h2 with h3 h4
  subst h3
  subst h4
  rw [np_hstack_ok hp2, np_hstack_ok hb2, flatten_replicate_length, flatten_replicate_length,
    fancy_len hp1, fancy_len hb1]

theorem add_dark_len {c : String} {nd : Int} {pb out : List Int × List Int}
    (h : add_dark_one c nd pb = Except.ok out) (hlen : pb.1.length = pb.2.length) :
    out.1.length = out.2.length := by
  unfold add_dark_one at h
  rcases ebind_ok_iff.mp h with ⟨e, he, h⟩
  rcases ebind_ok_iff.mp h with ⟨op, hop, h⟩
  rcases ebind_ok_iff.mp h with ⟨ob, hob, h⟩
  rcases ebind_ok_iff.mp h with ⟨ones, hones, h⟩
  rcases ebind_ok_iff.mp h with ⟨pp, hpp, h⟩
  rcases ebind_ok_iff.mp h with ⟨bb, hbb, h⟩
  injection h with h2
  subst h2
  have hop1 : op.length = 1 := by
    rcases off_entry_cases he with h3 | h3 <;>
      · subst h3
        simp only [on_mode, off_mode, mk_mode, arr_data] at hop
        cases hop
        rfl
  have hob1 : ob.length = 1 := by
    rcases off_entry_cases he with h3 | h3 <;>
      · subst h3
        simp only [on_mode, off_mode, mk_mode, arr_data] at hob
        cases hob
        rfl
  have l1 := bcast_mul_len_one hop1 hpp
  have l2 := bcast_mul_len_one hob1 hbb
  simp [List.length_append, l1, l2, hlen]

theorem apply_blank_len {c : String} {b : Bool} {pb out : List Int × List Int}
    (h : apply_blank c b pb = Except.ok out) (hlen : pb.1.length = pb.2.length) :
    out.1.length = out.2.length := by
  unfold apply_blank at h
  cases b with
  | false =>
    simp only [Bool.false_eq_true, if_false] at h
    injection h with h2
    subst h2
    exact hlen
  | true =>
    simp only [if_true] at h
    rcases ebind_ok_iff.mp h with ⟨e, he, h⟩
    rcases ebind_ok_iff.mp h with ⟨op, hop, h⟩
    rcases ebind_ok_iff.mp h with ⟨ob, hob, h⟩
    rcases ebind_ok_iff.mp h with ⟨p, hp, h⟩
    rcases ebind_ok_iff.mp h with ⟨q, hq, h⟩
    injection h with h2
    subst h2
    have l1 := np_interleave_ok_length hp
    have l2 := np_interleave_ok_length hq
    simp [l1, l2, hlen]

theorem flatten_len_eq : ∀ {l : List (List Int × List Int)},
    (∀ pb ∈ l, pb.1.length = pb.2.length) →
    (l.map Prod.fst).flatten.length = (l.map Prod.snd).flatten.length := by
  intro l
  induction l with
  | nil => intro _; rfl
  | cons pb rest ih =>
    intro h
    simp only [List.map_cons, List.flatten_cons, List.length_append]
    rw [h pb (List.mem_cons_self _ _), ih (fun x hx => h x (List.mem_cons_of_mem _ hx))]

/-! Claim theorems. -/

/-- Claim C9: for every request on which `get_dmd_sequence` succeeds, the
returned picture-index and bit-index sequences have equal length, whatever
combination of subsets, repeats, dark frames, and blanking was requested. -/
theorem get_dmd_sequence_lengths_eq :
    ∀ (modes channels : StrArg) (nrepeats : NrepArg) (ndarkframes : Int)
      (blank : BlankArg) (mpi : MpiArg) (p b : List Int),
    get_dmd_sequence modes channels nrepeats ndarkframes blank mpi = Except.ok (p, b) →
    p.length = b.length := by
  intro modes channels nrepeats nd blank mpi p b h
  unfold get_dmd_sequence at h
  rcases ebind_ok_iff.mp h with ⟨chl, hchl, h⟩
  rcases ebind_ok_iff.mp h with ⟨ml0, hml0, h⟩
  rcases ebind_ok_iff.mp h with ⟨ml, hml, h⟩
  rcases ebind_ok_iff.mp h with ⟨mpi0, hmpi0, h⟩
  rcases ebind_ok_iff.mp h with ⟨mpis, hmpis, h⟩
  rcases ebind_ok_iff.mp h with ⟨nr0, hnr0, h⟩
  rcases ebind_ok_iff.mp h with ⟨nrs, hnrs, h⟩
  rcases ebind_ok_iff.mp h with ⟨bl0, hbl0, h⟩
  rcases ebind_ok_iff.mp h with ⟨bls, hbls, h⟩
  rcases ebind_ok_iff.mp h with ⟨base, hbase, h⟩
  rcases ebind_ok_iff.mp h with ⟨darked, hdark, h⟩
  rcases ebind_ok_iff.mp h with ⟨blanked, hblank, h⟩
  rcases ebind_ok_iff.mp h with ⟨pp, hpp, h⟩
  rcases ebind_ok_iff.mp h with ⟨bb, hbb, h⟩
  injection h with h2
  injection h2 with h3 h4
  subst h3
  subst h4
  have hb1 : ∀ pb2 ∈ base, pb2.1.length = pb2.2.length := by
    intro pb2 hm
    rcases map_each_ok_mem hbase pb2 hm with ⟨q, _, hrun⟩
    exact run_mode_len hrun
  have hb2 : ∀ pb2 ∈ darked, pb2.1.length = pb2.2.length := by
    intro pb2 hm
    by_cases hnd : nd = 0
    · rw [if_pos hnd] at hdark
      injection hdark with h5
      rw [← h5] at hm
      exact hb1 _ hm
    · rw [if_neg hnd] at hdark
      rcases map_each_ok_mem hdark pb2 hm with ⟨q, hq, hadd⟩
      exact add_dark_len hadd (hb1 _ (mem_zip_snd hq))
  have hb3 : ∀ pb2 ∈ blanked, pb2.1.length = pb2.2.length := by
    intro pb2 hm
    rcases map_each_ok_mem hblank pb2 hm with ⟨q, hq, hap⟩
    exact apply_blank_len hap (hb2 _ (mem_zip3_third hq))
  rw [np_hstack_ok hpp, np_hstack_ok hbb]
  exact flatten_len_eq hb3

/-- Witness for C9: the single-channel "blue"/"default" request succeeds and
the theorem instantiates to the equality of the two output lengths. -/
theorem get_dmd_sequence_lengths_eq_witness :
    ([0, 0, 0, 0, 0, 0, 0, 0, 0] : List Int).length =
      ([0, 1, 2, 3, 4, 5, 6, 7, 8] : List Int).length :=
  get_dmd_sequence_lengths_eq (StrArg.str "default") (StrArg.str "blue")
    (NrepArg.int 1) 0 (BlankArg.bool false) MpiArg.none
    [0, 0, 0, 0, 0, 0, 0, 0, 0] [0, 1, 2, 3, 4, 5, 6, 7, 8] rfl

/-- Claim C2 (amended): a request whose `channels` list is empty always fails
(`np.hstack` of an empty list of arrays raises a `ValueError`); it never
returns an empty DeviceSequence. -/
theorem get_dmd_sequence_empty_channels_errors :
    ∀ (modes : StrArg) (nrepeats : NrepArg) (ndarkframes : Int)
      (blank : BlankArg) (mpi : MpiArg),
    ∃ e, get_dmd_sequence modes (StrArg.list []) nrepeats ndarkframes blank mpi =
      Except.error e := by
  intro modes nrepeats nd blank mpi
  cases hr : get_dmd_sequence modes (StrArg.list []) nrepeats nd blank mpi with
  | error e => exact ⟨e, rfl⟩
  | ok pb =>
    exfalso
    unfold get_dmd_sequence at hr
    rcases ebind_ok_iff.mp hr with ⟨chl, hchl, hr⟩
    simp only [norm_str_arg] at hchl
    injection hchl with h1
    subst h1
    rcases ebind_ok_iff.mp hr with ⟨ml0, hml0, hr⟩
    rcases ebind_ok_iff.mp hr with ⟨ml, hml, hr⟩
    have h2 : ml = [] := List.length_eq_zero.mp (bc_len hml)
    subst h2
    rcases ebind_ok_iff.mp hr with ⟨mpi0, hmpi0, hr⟩
    rcases ebind_ok_iff.mp hr with ⟨mpis, hmpis, hr⟩
    have h3 : mpis = [] := List.length_eq_zero.mp (bc_len hmpis)
    subst h3
    rcases ebind_ok_iff.mp hr with ⟨nr0, hnr0, hr⟩
    rcases ebind_ok_iff.mp hr with ⟨nrs, hnrs, hr⟩
    have h4 : nrs = [] := List.length_eq_zero.mp (bc_len hnrs)
    subst h4
    rcases ebind_ok_iff.mp hr with ⟨bl0, hbl0, hr⟩
    rcases ebind_ok_iff.mp hr with ⟨bls, hbls, hr⟩
    have h5 : bls = [] := List.length_eq_zero.mp (bc_len hbls)
    subst h5
    rcases ebind_ok_iff.mp hr with ⟨base, hbase, hr⟩
    rw [show zip4 ([] : List String) ([] : List String) ([] : List (List Int))
        ([] : List Int) = [] from rfl] at hbase
    simp only [map_each] at hbase
    injection hbase with h6
    subst h6
    rcases ebind_ok_iff.mp hr with ⟨darked, hdark, hr⟩
    have h7 : darked = [] := by
      by_cases hnd : nd = 0
      · rw [if_pos hnd] at hdark
        injection hdark with h8
        exact h8.symm
      · rw [if_neg hnd] at hdark
        rw [show List.zip ([] : List String) ([] : List (List Int × List Int)) = []
            from rfl] at hdark
        simp only [map_each] at hdark
        injection hdark with h8
        exact h8.symm
    subst h7
    rcases ebind_ok_iff.mp hr with ⟨blanked, hblank, hr⟩
    rw [show zip3 ([] : List String) ([] : List Bool) ([] : List (List Int × List Int)) = []
        from rfl] at hblank
    simp only [map_each] at hblank
    injection hblank with h9
    subst h9
    rcases ebind_ok_iff.mp hr with ⟨p2, hp2, hr⟩
    simp [np_hstack] at hp2

/-- Counterexample to claim C2 as stated: the fully empty request (empty
channels and all per-channel fields of length 0) raises a `ValueError` from
`np.hstack([])` instead of returning an empty sequence. -/
theorem get_dmd_sequence_empty_channels_cex :
    get_dmd_sequence (StrArg.list []) (StrArg.list []) (NrepArg.list []) 0
      (BlankArg.list []) (MpiArg.list []) = Except.error PyErr.valueError := rfl

/-- Claim C10: calling `get_dmd_sequence` with `nrepeats = None` always
raises: the `isinstance` checks reject `None` before the internal branch
that would replace `None` by a list of ones can run, so no call with
`nrepeats = None` returns a sequence. -/
theorem get_dmd_sequence_nrepeats_none_errors :
    ∀ (modes channels : StrArg) (ndarkframes : Int) (blank : BlankArg) (mpi : MpiArg),
    ∃ e, get_dmd_sequence modes channels NrepArg.none ndarkframes blank mpi =
      Except.error e := by
  intro modes channels nd blank mpi
  cases hr : get_dmd_sequence modes channels NrepArg.none nd blank mpi with
  | error e => exact ⟨e, rfl⟩
  | ok pb =>
    exfalso
    unfold get_dmd_sequence at hr
    rcases ebind_ok_iff.mp hr with ⟨chl, _, hr⟩
    rcases ebind_ok_iff.mp hr with ⟨ml0, _, hr⟩
    rcases ebind_ok_iff.mp hr with ⟨ml, _, hr⟩
    rcases ebind_ok_iff.mp hr with ⟨mpi0, _, hr⟩
    rcases ebind_ok_iff.mp hr with ⟨mpis, _, hr⟩
    rcases ebind_ok_iff.mp hr with ⟨nr0, hnr0, hr⟩
    exact Except.noConfusion hnr0

theorem np_hstack_pos {l : List (List Int)} (h : l ≠ []) :
    np_hstack l = Except.ok l.flatten := by
  simp [np_hstack, h]

theorem flatten_replicate_singleton {α : Type} (n : Nat) (x : α) :
    (List.replicate n [x]).flatten = List.replicate n x := by
  induction n with
  | zero => rfl
  | succ n ih => simp [List.replicate_succ, ih]

/-- Counterexample to claim C1 as stated: with repeat count 0 the call does
not succeed with an empty per-channel sequence; `np.hstack` of the empty
list of tiles raises a `ValueError`. -/
theorem get_dmd_repeat_zero_cex :
    get_dmd_sequence (StrArg.str "default") (StrArg.str "blue") (NrepArg.int 0) 0
      (BlankArg.bool false) MpiArg.none = Except.error PyErr.valueError := rfl

/-- Claim C1 (amended): per channel, a repeat count `n ≥ 1` tiles the selected
subsequence by straight concatenation of `n` copies; a repeat count `n ≤ 0`
(in particular 0) makes the call fail with a `ValueError` instead of
producing an empty sequence. -/
theorem run_mode_repeat :
    ∀ (c m : String) (ind : List Int) (n : Int) (p b : List Int),
    run_mode c m ind 1 = Except.ok (p, b) →
    (1 ≤ n → run_mode c m ind n =
      Except.ok ((List.replicate n.toNat p).flatten, (List.replicate n.toNat b).flatten)) ∧
    (n ≤ 0 → run_mode c m ind n = Except.error PyErr.valueError) := by
  intro c m ind n p b h
  unfold run_mode at h
  rcases ebind_ok_iff.mp h with ⟨e, he, h⟩
  rcases ebind_ok_iff.mp h with ⟨p0, hp0, h⟩
  rcases ebind_ok_iff.mp h with ⟨b0, hb0, h⟩
  rcases ebind_ok_iff.mp h with ⟨p1, hp1, h⟩
  rcases ebind_ok_iff.mp h with ⟨b1, hb1, h⟩
  rcases ebind_ok_iff.mp h with ⟨p2, hp2, h⟩
  rcases ebind_ok_iff.mp h with ⟨b2, hb2, h⟩
  injection h with h2
  injection h2 with h3 h4
  subst h3
  subst h4
  have hp2e : p2 = p1 := by simpa using np_hstack_ok hp2
  have hb2e : b2 = b1 := by simpa using np_hstack_ok hb2
  subst hp2e
  subst hb2e
  constructor
  · intro hn
    unfold run_mode
    rw [he, ebind_ok, hp0, ebind_ok, hb0, ebind_ok, hp1, ebind_ok, hb1, ebind_ok]
    have hne1 : List.replicate n.toNat p2 ≠ [] := by
      simp only [ne_eq, List.replicate_eq_nil_iff]
      omega
    have hne2 : List.replicate n.toNat b2 ≠ [] := by
      simp only [ne_eq, List.replicate_eq_nil_iff]
      omega
    rw [np_hstack_pos hne1, ebind_ok, np_hstack_pos hne2, ebind_ok]
  · intro hn
    unfold run_mode
    rw [he, ebind_ok, hp0, ebind_ok, hb0, ebind_ok, hp1, ebind_ok, hb1, ebind_ok]
    have hz : n.toNat = 0 := by omega
    rw [hz]
    rfl

/-- Witness for C1 (amended): selecting position 0 of "blue"/"default" and
repeating it twice yields the subsequence concatenated twice; repeating it
zero times fails. -/
theorem run_mode_repeat_witness :
    run_mode "blue" "default" [0] 2 = Except.ok ([0, 0], [0, 0]) ∧
    run_mode "blue" "default" [0] 0 = Except.error PyErr.valueError := by
  constructor
  · exact (run_mode_repeat "blue" "default" [0] 2 [0] [0] rfl).1 (by decide)
  · exact (run_mode_repeat "blue" "default" [0] 0 [0] [0] rfl).2 (by decide)

/-- Counterexample to claim C3 as stated: the catalog accepts channel "off"
(its "default" mode resolves), yet that channel has no "off" mode, so the
lookup `channel_map["off"]["off"]` used by dark-frame insertion and
blank-interleaving raises a `KeyError`; likewise for channel "on". -/
theorem channel_off_lacks_off_mode_cex :
    cm_lookup "off" "off" = Except.error PyErr.keyError ∧
    cm_lookup "off" "default" = Except.ok off_mode ∧
    cm_lookup "on" "off" = Except.error PyErr.keyError ∧
    cm_lookup "on" "default" = Except.ok on_mode :=
  ⟨rfl, rfl, rfl, rfl⟩

/-- Claim C3 (amended): every channel of `channel_map` defines a "default"
mode, and the four color channels ("blue", "red", "green", "odt") also
define an "off" mode; the utility channels "off" and "on" define only
"default", so dark-frame insertion and blank-interleaving fail with a
`KeyError` for them. -/
theorem channel_map_modes_amended :
    channel_map.all (fun p => p.2.any (fun q => q.1 == "default")) = true ∧
    cm_lookup "blue" "off" = Except.ok off_mode ∧
    cm_lookup "red" "off" = Except.ok off_mode ∧
    cm_lookup "green" "off" = Except.ok on_mode ∧
    cm_lookup "odt" "off" = Except.ok on_mode ∧
    cm_lookup "off" "off" = Except.error PyErr.keyError ∧
    cm_lookup "on" "off" = Except.error PyErr.keyError :=
  ⟨rfl, rfl, rfl, rfl, rfl, rfl, rfl⟩

/-- Counterexample to claim C4 as stated: for the inverted channel "green",
mode "widefield" aliases the base "off" pattern (bit indices `[4]`), not the
base "on" pattern (bit indices `[3]`). -/
theorem green_widefield_cex :
    cm_lookup "green" "widefield" = Except.ok off_mode ∧
    off_mode.bit_indices = some (NpArr.mk 1 [4]) ∧
    on_mode.bit_indices = some (NpArr.mk 1 [3]) ∧
    ([4] : List Int) ≠ [3] :=
  ⟨rfl, rfl, rfl, by decide⟩

/-- Claim C4 (amended): for the inverted channels "green" and "odt", mode
"off" aliases the base "on" pattern (pictures `[1]`, bits `[3]`), while modes
"on" and "widefield" both alias the base "off" pattern (pictures `[1]`,
bits `[4]`). -/
theorem inverted_channel_aliases :
    cm_lookup "green" "off" = Except.ok on_mode ∧
    cm_lookup "green" "on" = Except.ok off_mode ∧
    cm_lookup "green" "widefield" = Except.ok off_mode ∧
    cm_lookup "odt" "off" = Except.ok on_mode ∧
    cm_lookup "odt" "on" = Except.ok off_mode ∧
    cm_lookup "odt" "widefield" = Except.ok off_mode ∧
    on_mode = mk_mode [1] [3] ∧ off_mode = mk_mode [1] [4] :=
  ⟨rfl, rfl, rfl, rfl, rfl, rfl, rfl, rfl⟩

theorem mode_fields_ok_false_iff (e : ModeEntry) :
    mode_fields_ok e = false ↔ mode_entry_bad e := by
  rcases e with ⟨pi, bi⟩
  cases pi <;> cases bi <;> (simp [mode_fields_ok, mode_entry_bad]; try tauto)

/-- Counterexample to claim C5 as stated: a catalog whose single mode has
one-dimensional picture/bit arrays of different lengths (1 and 2) still
validates as `true`; the validator never compares the two lengths. -/
theorem validate_misses_mismatch_cex :
    validate_channel_map mismatched_map = true ∧
    mismatched_map = [("ch", [("default",
      ModeEntry.mk (some (NpArr.mk 1 [0])) (some (NpArr.mk 1 [0, 1])))])] ∧
    ([0] : List Int).length ≠ ([0, 1] : List Int).length :=
  ⟨rfl, rfl, by decide⟩

/-- Claim C5 (amended): catalog validation returns `false` exactly when some
channel lacks a "default" mode, or some mode is missing its picture or bit
index array, or one of those arrays is not one-dimensional.  Mismatched
lengths between the two arrays of a mode are not checked. -/
theorem validate_channel_map_iff (cm : List (String × List (String × ModeEntry))) :
    validate_channel_map cm = false ↔
      ∃ p ∈ cm, (¬ ∃ q ∈ p.2, q.1 = "default") ∨ ∃ q ∈ p.2, mode_entry_bad q.2 := by
  have hiff : validate_channel_map cm = true ↔
      ∀ p ∈ cm, (∃ q ∈ p.2, q.1 = "default") ∧ ∀ q ∈ p.2, mode_fields_ok q.2 = true := by
    simp [validate_channel_map, List.all_eq_true, List.any_eq_true, Bool.and_eq_true]
  constructor
  · intro h
    have h2 : ¬ (validate_channel_map cm = true) := by simp [h]
    rw [hiff] at h2
    push_neg at h2
    rcases h2 with ⟨p, hp, h3⟩
    refine ⟨p, hp, ?_⟩
    by_cases hd : ∃ q ∈ p.2, q.1 = "default"
    · right
      rcases h3 hd with ⟨q, hq, hne⟩
      exact ⟨q, hq, (mode_fields_ok_false_iff q.2).mp (Bool.eq_false_iff.mpr hne)⟩
    · left
      exact hd
  · rintro ⟨p, hp, h3⟩
    cases hv : validate_channel_map cm with
    | false => rfl
    | true =>
      exfalso
      have h4 := hiff.mp hv p hp
      rcases h3 with h5 | ⟨q, hq, hbad⟩
      · exact h5 h4.1
      · have h6 := (mode_fields_ok_false_iff q.2).mpr hbad
        rw [h4.2 q hq] at h6
        exact Bool.noConfusion h6

/-- Witness for C5 (amended): the validator rejects a catalog whose channel
lacks a "default" mode, and the iff recovers the offending channel. -/
theorem validate_channel_map_iff_witness :
    ∃ p ∈ no_default_map, (¬ ∃ q ∈ p.2, q.1 = "default") ∨ ∃ q ∈ p.2, mode_entry_bad q.2 :=
  (validate_channel_map_iff no_default_map).mp rfl

theorem py_index_err_shape {xs : List Int} {i : Int} {e : PyErr}
    (h : py_index xs i = Except.error e) : e = PyErr.indexError := by
  simp only [py_index] at h
  split at h
  all_goals split at h
  all_goals first
    | exact Except.noConfusion h
    | (injection h with h2; exact h2.symm)

/-- Counterexample to claim C6 as stated: the negative index -1 inside a
pattern subset is accepted (numpy wraps it to the last position) instead of
raising: selecting `[-1]` from "blue"/"default" succeeds and returns the
ninth pattern (picture 0, bit 8). -/
theorem get_dmd_negative_index_cex :
    get_dmd_sequence (StrArg.str "default") (StrArg.str "blue") (NrepArg.int 1) 0
      (BlankArg.bool false) (MpiArg.list [[-1]]) = Except.ok ([0], [8]) := rfl

/-- Claim C6 (amended): subset selection accepts exactly the indices in
`[-npatterns, npatterns)`, with negative indices counting from the end
(numpy semantics), and returns one element per index in the given order, so
duplicates and reordering are permitted; any index outside that range makes
the selection fail with an `IndexError`. -/
theorem fancy_index_spec (xs ind : List Int) :
    ((∀ i ∈ ind, -(Int.ofNat xs.length) ≤ i ∧ i < Int.ofNat xs.length) →
      fancy_index xs ind = Except.ok (ind.map (fun i =>
        xs.getD (if i < 0 then i + Int.ofNat xs.length else i).toNat 0))) ∧
    ((∃ i ∈ ind, i < -(Int.ofNat xs.length) ∨ Int.ofNat xs.length ≤ i) →
      fancy_index xs ind = Except.error PyErr.indexError) := by
  induction ind with
  | nil =>
    constructor
    · intro _
      rfl
    · intro h
      rcases h with ⟨i, hi, _⟩
      simp at hi
  | cons i rest ih =>
    constructor
    · intro h
      rcases h i (List.mem_cons_self _ _) with ⟨h1l, h1r⟩
      have hrest := ih.1 (fun j hj => h j (List.mem_cons_of_mem _ hj))
      have hcond : 0 ≤ (if i < 0 then i + Int.ofNat xs.length else i) ∧
          (if i < 0 then i + Int.ofNat xs.length else i) < Int.ofNat xs.length := by
        by_cases hneg : i < 0
        · simp only [if_pos hneg]
          omega
        · simp only [if_neg hneg]
          omega
      have hpy : py_index xs i = Except.ok
          (xs.getD (if i < 0 then i + Int.ofNat xs.length else i).toNat 0) := by
        simp only [py_index]
        rw [if_pos hcond]
      simp only [fancy_index, List.map_cons]
      rw [hpy, ebind_ok, hrest, ebind_ok]
    · intro h
      rcases h with ⟨j, hj, hout⟩
      rcases List.mem_cons.mp hj with h1 | h1
      · subst h1
        have hpy : py_index xs j = Except.error PyErr.indexError := by
          simp only [py_index]
          rw [if_neg ?_]
          intro hc
          rcases hc with ⟨hcl, hcr⟩
          by_cases hneg : j < 0
          · rw [if_pos hneg] at hcl hcr
            omega
          · rw [if_neg hneg] at hcl hcr
            omega
        simp only [fancy_index]
        rw [hpy, ebind_err]
      · have hrest := ih.2 ⟨j, h1, hout⟩
        simp only [fancy_index]
        cases hpy : py_index xs i with
        | error e =>
          have he := py_index_err_shape hpy
          subst he
          rw [ebind_err]
        | ok v =>
          rw [ebind_ok, hrest, ebind_err]

/-- Witness for C6 (amended): on a two-element array, the subset
`[-1, 0, 0]` (a negative index, a duplicate, out of ascending order) is
selected in the given order, and the out-of-range index 2 raises. -/
theorem fancy_index_spec_witness :
    fancy_index [10, 20] [-1, 0, 0] = Except.ok [20, 10, 10] ∧
    fancy_index [10, 20] [2] = Except.error PyErr.indexError := by
  constructor
  · exact (fancy_index_spec [10, 20] [-1, 0, 0]).1 (by decide)
  · exact (fancy_index_spec [10, 20] [2]).2 (by decide)

/-- Claim C7: whenever the blanking step succeeds on a channel with its blank
flag set, the channel's "off" mode holds a single (picture, bit) frame, the
post-blank pair is exactly twice as long as the pre-blank pair (which
already includes any dark-frame prefix, blanking running after dark-frame
insertion), even positions 0, 2, 4, ... carry the original frames in their
original order, and every odd position carries the off frame. -/
theorem apply_blank_doubles :
    ∀ (c : String) (pb out : List Int × List Int),
    apply_blank c true pb = Except.ok out →
    ∃ vp vb, cm_lookup c "off" = Except.ok (mk_mode [vp] [vb]) ∧
      out.1.length = 2 * pb.1.length ∧ out.2.length = 2 * pb.2.length ∧
      (∀ k, k < pb.1.length → out.1.getD (2 * k) 0 = pb.1.getD k 0 ∧
        out.1.getD (2 * k + 1) 0 = vp) ∧
      (∀ k, k < pb.2.length → out.2.getD (2 * k) 0 = pb.2.getD k 0 ∧
        out.2.getD (2 * k + 1) 0 = vb) := by
  intro c pb out h
  unfold apply_blank at h
  rw [if_pos rfl] at h
  rcases ebind_ok_iff.mp h with ⟨e, he, h⟩
  rcases ebind_ok_iff.mp h with ⟨op, hop, h⟩
  rcases ebind_ok_iff.mp h with ⟨ob, hob, h⟩
  rcases ebind_ok_iff.mp h with ⟨p, hp, h⟩
  rcases ebind_ok_iff.mp h with ⟨q, hq, h⟩
  injection h with h2
  subst h2
  rcases off_entry_cases he with h3 | h3
  · subst h3
    simp only [on_mode, mk_mode, arr_data] at hop hob
    injection hop with hop2
    injection hob with hob2
    subst hop2
    subst hob2
    rw [interleave_single] at hp hq
    injection hp with hp2
    injection hq with hq2
    subst hp2
    subst hq2
    refine ⟨1, 3, he, interleave_pairs_length _ _ (by simp),
      interleave_pairs_length _ _ (by simp), ?_, ?_⟩
    · intro k hk
      exact ⟨interleave_pairs_getD_even _ _ k (by simp) hk,
        by rw [interleave_pairs_getD_odd _ _ k (by simp) hk]; exact replicate_getD _ _ k hk⟩
    · intro k hk
      exact ⟨interleave_pairs_getD_even _ _ k (by simp) hk,
        by rw [interleave_pairs_getD_odd _ _ k (by simp) hk]; exact replicate_getD _ _ k hk⟩
  · subst h3
    simp only [off_mode, mk_mode, arr_data] at hop hob
    injection hop with hop2
    injection hob with hob2
    subst hop2
    subst hob2
    rw [interleave_single] at hp hq
    injection hp with hp2
    injection hq with hq2
    subst hp2
    subst hq2
    refine ⟨1, 4, he, interleave_pairs_length _ _ (by simp),
      interleave_pairs_length _ _ (by simp), ?_, ?_⟩
    · intro k hk
      exact ⟨interleave_pairs_getD_even _ _ k (by simp) hk,
        by rw [interleave_pairs_getD_odd _ _ k (by simp) hk]; exact replicate_getD _ _ k hk⟩
    · intro k hk
      exact ⟨interleave_pairs_getD_even _ _ k (by simp) hk,
        by rw [interleave_pairs_getD_odd _ _ k (by simp) hk]; exact replicate_getD _ _ k hk⟩

/-- Witness for C7: blanking the one-frame channel pair `([7], [8])` on
channel "blue" gives `([7, 1], [8, 4])`: doubled length, the original frame
at position 0, and blue's off frame (picture 1, bit 4) at position 1. -/
theorem apply_blank_doubles_witness :
    ∃ vp vb, cm_lookup "blue" "off" = Except.ok (mk_mode [vp] [vb]) ∧
      ([7, 1] : List Int).length = 2 * ([7] : List Int).length ∧
      ([8, 4] : List Int).length = 2 * ([8] : List Int).length ∧
      (∀ k, k < ([7] : List Int).length →
        ([7, 1] : List Int).getD (2 * k) 0 = ([7] : List Int).getD k 0 ∧
        ([7, 1] : List Int).getD (2 * k + 1) 0 = vp) ∧
      (∀ k, k < ([8] : List Int).length →
        ([8, 4] : List Int).getD (2 * k) 0 = ([8] : List Int).getD k 0 ∧
        ([8, 4] : List Int).getD (2 * k + 1) 0 = vb) :=
  apply_blank_doubles "blue" ([7], [8]) ([7, 1], [8, 4]) rfl

/-- Counterexample to claim C8 as stated: a scalar field is not replicated
"to one entry per channel" when the channel list is empty; with zero
channels the scalar `modes="default"` makes the call fail with the arity
`ValueError` even though all other fields have length 0. -/
theorem get_dmd_scalar_zero_channels_cex :
    get_dmd_sequence (StrArg.str "default") (StrArg.list []) (NrepArg.list []) 0
      (BlankArg.list []) (MpiArg.list []) = Except.error PyErr.valueError := rfl

/-- Claim C8 (amended): for each broadcastable field, a length-1 list (or a
scalar, which is first wrapped into one) is used as-is when there is exactly
one channel and is replicated once per channel when there are at least two;
with zero channels a length-1 field fails with the arity `ValueError`; and a
field whose length is neither 1 nor the channel count fails with the arity
`ValueError` before any sequence is produced. -/
theorem broadcast_check_spec {α : Type} (xs : List α) (n : Nat) :
    (xs.length = n → broadcast_check xs n = Except.ok xs) ∧
    (∀ x, xs = [x] → 1 < n → broadcast_check xs n = Except.ok (List.replicate n x)) ∧
    (xs.length = 1 → n = 0 → broadcast_check xs n = Except.error PyErr.valueError) ∧
    (xs.length ≠ n → xs.length ≠ 1 → broadcast_check xs n = Except.error PyErr.valueError) := by
  refine ⟨?_, ?_, ?_, ?_⟩
  · intro h
    by_cases h1 : xs.length = 1 ∧ 1 < n
    · exfalso
      rcases h1 with ⟨h1a, h1b⟩
      omega
    · simp only [broadcast_check, if_neg h1]
      rw [if_pos h]
  · intro x hx hn
    subst hx
    have hc : ([x] : List α).length = 1 ∧ 1 < n := ⟨rfl, hn⟩
    have hlen : ((List.replicate n [x]).flatten).length = n := by
      rw [flatten_replicate_length]
      simp
    simp only [broadcast_check, if_pos hc]
    rw [if_pos hlen, flatten_replicate_singleton]
  · intro h1 h2
    subst h2
    simp only [broadcast_check]
    rw [if_neg (by omega : ¬ (xs.length = 1 ∧ 1 < 0))]
    rw [if_neg (by omega : ¬ xs.length = 0)]
  · intro h1 h2
    have hc1 : ¬ (xs.length = 1 ∧ 1 < n) := fun hc => h2 hc.1
    simp only [broadcast_check]
    rw [if_neg hc1]
    rw [if_neg h1]

/-- Witness for C8 (amended): a length-1 field is replicated across three
channels, and the same field with zero channels fails. -/
theorem broadcast_check_spec_witness :
    broadcast_check (["a"] : List String) 3 = Except.ok ["a", "a", "a"] ∧
    broadcast_check (["a"] : List String) 0 = Except.error PyErr.valueError := by
  constructor
  · exact (broadcast_check_spec ["a"] 3).2.1 "a" rfl (by decide)
  · exact (broadcast_check_spec ["a"] 0).2.2.1 rfl rfl

end SetDmdSim
